import Mathlib

/-!
Verification of the NDVI analysis core of backend/server.py.

The embedding translates the Python/numpy code into executable Lean
definitions:

* numeric sample values are rationals (ℚ); a 2-D numpy array is embedded
  as its flattened element list `List ℚ` for element-wise operations, and
  as `List (List ℚ)` (rows of columns) where the 2-D structure matters
  (the preview decimation);
* an NDVI element is an `Option ℚ`: `some v` is a finite float value and
  `none` is the IEEE NaN produced by a 0/0 division.  A nonzero numerator
  over a zero denominator is IEEE infinity, which `np.clip(-1, 1)`
  immediately maps to the finite value ±1, so after the clip of line 180
  the only possible non-finite element is NaN;
* the fallible Python functions (a raised exception caught by the broad
  `except` of `compute_ndvi_from_tif`) return `Option`, `none` being the
  caught-exception path.
-/

namespace Server

/-- Epsilon guard `1e-6` of line 178 of server.py. -/
def eps : ℚ := 1 / 1000000

/-- Model of `ndarray.max()` over the flattened element list.  numpy raises
`ValueError` on an empty array; callers of this function guard emptiness, so
the default value `0` for `[]` is never relied upon. -/
def listMax : List ℚ → ℚ
  | [] => 0
  | x :: xs => xs.foldl max x

/-- Radiometric normalization of one band, lines 174-177 of server.py:
`if red.max() > 1.5: red = red / 10000.0 if red.max() > 100.0 else red / 255.0`. -/
def normalizeBand (a : List ℚ) : List ℚ :=
  if 3 / 2 < listMax a then
    if 100 < listMax a then a.map (fun x => x / 10000) else a.map (fun x => x / 255)
  else a

/-- Element-wise NDVI with clamp, lines 178-180 of server.py:
`ndvi = (nir - red) / (nir + red + 1e-6)` followed by
`ndvi = np.clip(ndvi, -1.0, 1.0)`.  IEEE semantics of the division: with a
zero denominator, a zero numerator gives NaN (`none`) and a nonzero
numerator gives ±infinity, which the clip maps to ±1; with a nonzero
denominator the quotient is finite and is clamped into [-1, 1]. -/
def ndviElem (red nir : ℚ) : Option ℚ :=
  if nir + red + eps = 0 then
    if nir - red = 0 then none
    else some (if 0 < nir - red then 1 else -1)
  else some (max (-1) (min 1 ((nir - red) / (nir + red + eps))))

/-- NDVI quotient before the clamp of line 180 (the pure formula of
line 178), on one element. -/
def ndviRaw (red nir : ℚ) : ℚ := (nir - red) / (nir + red + eps)

/-- Full NDVI array of lines 174-180: both bands are normalized
independently, then the index is computed element-wise. -/
def ndviArray (red nir : List ℚ) : List (Option ℚ) :=
  List.zipWith ndviElem (normalizeBand red) (normalizeBand nir)

/-- Rounding of `numpy.round` to an integer: round half to even. -/
def roundHalfEven (q : ℚ) : ℤ :=
  if q - Int.floor q < 1 / 2 then Int.floor q
  else if 1 / 2 < q - Int.floor q then Int.floor q + 1
  else if Int.floor q % 2 = 0 then Int.floor q else Int.floor q + 1

/-- Model of `np.round(q, 3)`. -/
def round3 (q : ℚ) : ℚ := (roundHalfEven (q * 1000) : ℚ) / 1000

/-- Model of `np.round(q, 1)`. -/
def round1 (q : ℚ) : ℚ := (roundHalfEven (q * 10) : ℚ) / 10

/-- Finite (non-NaN) elements of an NDVI array, in order. -/
def finiteVals (xs : List (Option ℚ)) : List ℚ := xs.filterMap id

/-- Model of `float(np.round(np.nanmean(ndvi), 3))`, line 186 of server.py.
`np.nanmean` averages the non-NaN elements; on an all-NaN input it emits a
RuntimeWarning and returns NaN (`none` here), it does not raise. -/
def meanNdvi (xs : List (Option ℚ)) : Option ℚ :=
  if finiteVals xs = [] then none
  else some (round3 ((finiteVals xs).sum / (finiteVals xs).length))

/-- Comparison `ndvi > 0.3` on one element; the IEEE comparison
`NaN > 0.3` is false. -/
def isHealthy : Option ℚ → Bool
  | none => false
  | some v => decide (3 / 10 < v)

/-- Model of `float(np.round((ndvi > 0.3).mean() * 100.0, 1))`, line 185 of
server.py.  The boolean mean divides by the count of all elements, NaN
elements included (they compare false).  On an empty array the mean is NaN. -/
def healthyPct (xs : List (Option ℚ)) : Option ℚ :=
  if xs = [] then none
  else some (round1 ((xs.countP isHealthy : ℚ) / xs.length * 100))

/-- Numeric outputs of `compute_ndvi_from_tif` (the `mean_ndvi` and
`healthy_pct` entries of the returned dict). -/
structure NdviOutcome where
  mean_ndvi : Option ℚ
  healthy_pct : Option ℚ

/-- Lines 174-186 of `compute_ndvi_from_tif`, from the point where a
same-shape band pair has been resolved, on the flattened element lists.
An empty band makes `red.max()` raise `ValueError`, which the enclosing
`except` catches and turns into `None`: that path is the emptiness guard. -/
def computeNdviStats (red nir : List ℚ) : Option NdviOutcome :=
  if red = [] ∨ nir = [] then none
  else some ⟨meanNdvi (ndviArray red nir), healthyPct (ndviArray red nir)⟩

/-- One page of a multi-page TIFF container: its `description` attribute and
its `PageName` tag value (lines 158-165 of server.py). -/
structure TiffPage where
  description : String
  pageName : String

/-- Lower-cased label text of a page, line 159-165 of server.py:
`desc.lower() + ' ' + name.lower()` as a character list. -/
def pageLabel (p : TiffPage) : List Char :=
  p.description.data.map Char.toLower ++ [' '] ++ p.pageName.data.map Char.toLower

/-- Test that `pat` begins `l` (character-wise). -/
def startsWith : List Char → List Char → Bool
  | [], _ => true
  | _ :: _, [] => false
  | a :: as, b :: bs => a == b && startsWith as bs

/-- Python substring test `pat in s` over character lists. -/
def containsSub (pat : List Char) : List Char → Bool
  | [] => pat.isEmpty
  | c :: rest => startsWith pat (c :: rest) || containsSub pat rest

/-- Red-page predicate of line 166: `'red' in s`. -/
def matchesRed (p : TiffPage) : Bool := containsSub "red".data (pageLabel p)

/-- NIR-page predicate of line 167: `'nir' in s or 'near' in s`. -/
def matchesNir (p : TiffPage) : Bool :=
  containsSub "nir".data (pageLabel p) || containsSub "near".data (pageLabel p)

/-- Model of Python `next((i for i, s in labels if p s), None)`: index of
the first element satisfying `p`, in container order. -/
def firstMatch (p : TiffPage → Bool) : List TiffPage → Option Nat
  | [] => none
  | q :: rest => if p q then some 0 else (firstMatch p rest).map (· + 1)

/-- Line 166 of server.py: `red_idx = next((i for i, s in labels if 'red' in s), None)`. -/
def redIdx (pages : List TiffPage) : Option Nat := firstMatch matchesRed pages

/-- Line 167 of server.py:
`nir_idx = next((i for i, s in labels if 'nir' in s or 'near' in s), None)`. -/
def nirIdx (pages : List TiffPage) : Option Nat := firstMatch matchesNir pages

/-- Strategy B band resolver, lines 154-170 of server.py: a pair is
produced exactly when both page searches succeed (`if red_idx is not None
and nir_idx is not None`); the code performs no further check on the two
indices. -/
def strategyB (pages : List TiffPage) : Option (Nat × Nat) :=
  match redIdx pages, nirIdx pages with
  | some r, some n => some (r, n)
  | _, _ => none

/-- Strategy A band resolver `_guess_red_nir`, lines 123-137 of server.py,
as a function of the ndarray shape: a 3-D shape (h, w, c) with c ≥ 4
resolves to channel indices (2, 3); every other shape is unresolved. -/
def guessRedNir (shape : List Nat) : Option (Nat × Nat) :=
  match shape with
  | [_, _, c] => if 4 ≤ c then some (2, 3) else none
  | _ => none

/-- Python truthiness of an optional string field: `None` and `''` are
falsy, every other string is truthy. -/
def truthy : Option String → Bool
  | none => false
  | some s => !(s == "")

/-- Python `a or b` for an optional string field `a` and a string
default `b`. -/
def pyOr (a : Option String) (b : String) : Option String :=
  if truthy a then a else some b

/-- Model of `any(e in ext_seen for e in consts)`, lines 295-304. -/
def hasAny (extSeen consts : List String) : Bool := consts.any (fun e => extSeen.contains e)

/-- Source/format classifier of `analyze_project`, lines 289-308 of
server.py, as a function of the observed extension set and the current
field values. -/
def classify (extSeen : List String) (ds ft : Option String) :
    Option String × Option String :=
  if truthy ds && truthy ft then (ds, ft)
  else if hasAny extSeen [".tif", ".tiff", ".geotiff"] then
    (pyOr ds "Satellite", pyOr ft "GeoTIFF")
  else if hasAny extSeen [".hdf", ".h5"] then
    (pyOr ds "Specialized", pyOr ft "HDF5")
  else if hasAny extSeen [".nc"] then
    (pyOr ds "Specialized", pyOr ft "NetCDF")
  else if hasAny extSeen [".jpg", ".jpeg", ".png"] then
    (pyOr ds "Drone", pyOr ft "JPEG/PNG")
  else (ds, ft)

/-- Preview stride of line 182: `step = max(1, int(max(ndvi.shape) / 1024))`.
For the sizes a raster can have the float division by 1024 is exact in
double precision, so `int(...)` is the floor, i.e. Nat division. -/
def previewStep (h w : Nat) : Nat := max 1 (max h w / 1024)

/-- Nearest-neighbour decimation `l[::step]`: the elements at indices
0, step, 2·step, ... -/
def decimate {α : Type*} (step : Nat) : List α → List α
  | [] => []
  | x :: xs => x :: decimate step (xs.drop (step - 1))
termination_by l => l.length
decreasing_by
  simp only [List.length_drop, List.length_cons]
  omega

/-- Preview downsampling `ndvi_small = ndvi[::step, ::step]` of
lines 182-183 of server.py, on the rows-of-columns view. -/
def previewDownsample (ndvi : List (List ℚ)) : List (List ℚ) :=
  decimate (previewStep ndvi.length (ndvi.headD []).length)
    (ndvi.map (decimate (previewStep ndvi.length (ndvi.headD []).length)))

/-- Project fields written by `analyze_project` that depend on the NDVI
result and the heatmap save: lines 331-338 and 347-353 of server.py. -/
structure ProjectFields where
  mean_ndvi : Option ℚ
  healthy_pct : Option ℚ
  ndvi_map_url : Option String

/-- Lines 331-338 and 340-355 of `analyze_project` for the case where an
NDVI result is present.  `save_heatmap_png` performs file I/O and may
raise; `saveOk` is the outcome of that call.  The `try`/`except` of
lines 334-338 confines a save failure to the `ndvi_map_url` field: the
numeric fields are taken from the NDVI result unconditionally, and the map
URL keeps its previous value when the save fails. -/
def applyNdviResult (outcome : NdviOutcome) (prevUrl : Option String)
    (saveOk : Bool) (newUrl : String) : ProjectFields :=
  ⟨outcome.mean_ndvi, outcome.healthy_pct, if saveOk then some newUrl else prevUrl⟩

/-- Composition of the NDVI computation and the `analyze_project` field
update, for the case where a GeoTIFF band pair resolved to the given
flattened band lists. -/
def analyzeSlice (red nir : List ℚ) (prevUrl : Option String) (saveOk : Bool)
    (newUrl : String) : Option ProjectFields :=
  (computeNdviStats red nir).map (fun oc => applyNdviResult oc prevUrl saveOk newUrl)

/-- Three-page container of the paged-resolution example: page
descriptions "desc: red band", "desc: near infrared", "desc: blue". -/
def threePages : List TiffPage :=
  [⟨ "desc: red band", "" ⟩, ⟨ "desc: near infrared", "" ⟩, ⟨ "desc: blue", "" ⟩]

/-- Single-page container whose only label is "near infrared". -/
def nearInfraredPage : TiffPage := ⟨ "near infrared", "" ⟩

/-- Positivity of the epsilon guard. -/
theorem eps_pos : 0 < eps := by norm_num [eps]

/-- Radiometric normalization maps non-negative bands to non-negative
bands: each branch either keeps an element or divides it by a positive
constant. -/
theorem normalizeBand_nonneg {a : List ℚ} (ha : ∀ x ∈ a, 0 ≤ x) :
    ∀ y ∈ normalizeBand a, 0 ≤ y := by
  intro y hy
  rw [normalizeBand] at hy
  split at hy
  · split at hy
    · rcases List.mem_map.1 hy with ⟨x, hx, rfl⟩
      exact div_nonneg (ha x hx) (by norm_num)
    · rcases List.mem_map.1 hy with ⟨x, hx, rfl⟩
      exact div_nonneg (ha x hx) (by norm_num)
  · exact ha y hy

/-- On non-negative inputs the NDVI element is a finite value in [-1, 1]:
the denominator is at least eps, hence positive, so the quotient is finite
and the clamp bounds it. -/
theorem ndviElem_of_nonneg {r n : ℚ} (hr : 0 ≤ r) (hn : 0 ≤ n) :
    ∃ v, ndviElem r n = some v ∧ -1 ≤ v ∧ v ≤ 1 := by
  have hden : 0 < n + r + eps := by
    have := eps_pos
    linarith
  refine ⟨max (-1) (min 1 ((n - r) / (n + r + eps))), ?_, le_max_left _ _,
    max_le (by norm_num) (min_le_left _ _)⟩
  rw [ndviElem, if_neg hden.ne']

/-- Membership in a zipWith image comes from members of the two lists. -/
theorem exists_of_mem_zipWith {α β γ : Type*} {f : α → β → γ} :
    ∀ {l₁ : List α} {l₂ : List β} {c : γ}, c ∈ List.zipWith f l₁ l₂ →
      ∃ a b, a ∈ l₁ ∧ b ∈ l₂ ∧ c = f a b := by
  intro l₁
  induction l₁ with
  | nil => intro l₂ c h; simp at h
  | cons x xs ih =>
    intro l₂ c h
    cases l₂ with
    | nil => simp at h
    | cons y ys =>
      rcases List.mem_cons.1 h with rfl | h
      · exact ⟨x, y, List.mem_cons_self _ _, List.mem_cons_self _ _, rfl⟩
      · rcases ih h with ⟨a, b, ha, hb, hc⟩
        exact ⟨a, b, List.mem_cons_of_mem _ ha, List.mem_cons_of_mem _ hb, hc⟩

/-- zipWith of two equal-length replicates is a replicate. -/
theorem zipWith_replicate_same {α β γ : Type*} (f : α → β → γ) (a : α) (b : β) :
    ∀ k, List.zipWith f (List.replicate k a) (List.replicate k b)
      = List.replicate k (f a b) := by
  intro k
  induction k with
  | zero => rfl
  | succ k ih => simp [List.replicate_succ, ih]

/-- Maximum of a nonempty constant list. -/
theorem listMax_replicate_succ (k : Nat) (x : ℚ) :
    listMax (List.replicate (k + 1) x) = x := by
  rw [List.replicate_succ, listMax]
  induction k with
  | zero => rfl
  | succ k ih => rw [List.replicate_succ, List.foldl_cons, max_self]; exact ih

/-- Constant lists below the 1.5 threshold pass through the normalizer
unchanged. -/
theorem normalizeBand_replicate_of_le (k : Nat) (x : ℚ) (hx : x ≤ 3 / 2) :
    normalizeBand (List.replicate k x) = List.replicate k x := by
  cases k with
  | zero => rw [normalizeBand, if_neg (by norm_num [listMax])]
  | succ k => rw [normalizeBand, listMax_replicate_succ, if_neg (by linarith)]

/-- Characterization of the character-wise prefix test. -/
theorem startsWith_eq_true_iff : ∀ (pat l : List Char),
    startsWith pat l = true ↔ ∃ post, l = pat ++ post := by
  intro pat
  induction pat with
  | nil =>
    intro l
    simp only [startsWith, List.nil_append, true_iff]
    exact ⟨l, rfl⟩
  | cons a as ih =>
    intro l
    cases l with
    | nil => simp [startsWith]
    | cons b bs =>
      simp only [startsWith, Bool.and_eq_true, beq_iff_eq, ih bs]
      constructor
      · rintro ⟨rfl, post, rfl⟩
        exact ⟨post, rfl⟩
      · rintro ⟨post, h⟩
        rw [List.cons_append] at h
        injection h with h1 h2
        exact ⟨h1.symm, post, h2⟩

/-- Characterization of the Python substring test: `pat` occurs in `l`
exactly when `l` splits around `pat`. -/
theorem containsSub_eq_true_iff : ∀ (pat l : List Char),
    containsSub pat l = true ↔ ∃ pre post, l = pre ++ pat ++ post := by
  intro pat l
  induction l with
  | nil =>
    rw [containsSub]
    simp only [List.isEmpty_iff]
    constructor
    · rintro rfl
      exact ⟨[], [], rfl⟩
    · rintro ⟨pre, post, h⟩
      rcases List.append_eq_nil.1 h.symm with ⟨h1, h2⟩
      exact (List.append_eq_nil.1 h1).2
  | cons c rest ih =>
    rw [containsSub]
    simp only [Bool.or_eq_true, startsWith_eq_true_iff, ih]
    constructor
    · rintro (⟨post, h⟩ | ⟨pre, post, h⟩)
      · exact ⟨[], post, by simpa using h⟩
      · exact ⟨c :: pre, post, by simp [h]⟩
    · rintro ⟨pre, post, h⟩
      cases pre with
      | nil =>
        exact Or.inl ⟨post, by simpa using h⟩
      | cons p ps =>
        simp only [List.cons_append] at h
        injection h with h1 h2
        exact Or.inr ⟨ps, post, h2⟩

/-- A label containing "infrared" contains "red": "infrared" ends in the
three characters "red". -/
theorem containsRed_of_containsInfrared {l : List Char}
    (h : containsSub "infrared".data l = true) : containsSub "red".data l = true := by
  rcases (containsSub_eq_true_iff _ _).1 h with ⟨pre, post, rfl⟩
  refine (containsSub_eq_true_iff _ _).2 ⟨pre ++ "infra".data, post, ?_⟩
  have hsplit : "infrared".data = "infra".data ++ "red".data := by decide
  rw [hsplit]
  simp [List.append_assoc]

/-- Characterization of the first-match page search: it returns index `i`
exactly when page `i` matches and no earlier page does (lowest index wins). -/
theorem firstMatch_eq_some_iff (p : TiffPage → Bool) :
    ∀ (l : List TiffPage) (i : Nat),
      firstMatch p l = some i ↔
        (∃ a, l[i]? = some a ∧ p a = true)
        ∧ ∀ j, j < i → ∀ a, l[j]? = some a → p a = false := by
  intro l
  induction l with
  | nil => intro i; simp [firstMatch]
  | cons q rest ih =>
    intro i
    rw [firstMatch]
    by_cases hq : p q = true
    · rw [if_pos hq]
      cases i with
      | zero => simp [hq]
      | succ i =>
        constructor
        · intro h
          exact absurd h (by simp)
        · rintro ⟨_, hall⟩
          have h0 := hall 0 (Nat.succ_pos i) q (by simp)
          rw [hq] at h0
          exact absurd h0 (by simp)
    · rw [if_neg hq]
      have hqf : p q = false := Bool.eq_false_iff.2 hq
      cases i with
      | zero =>
        constructor
        · intro h
          rcases Option.map_eq_some'.1 h with ⟨k, _, hk⟩
          exact absurd hk (by simp)
        · rintro ⟨⟨a, ha, hpa⟩, _⟩
          rw [List.getElem?_cons_zero, Option.some.injEq] at ha
          rw [← ha] at hpa
          exact absurd hpa hq
      | succ i =>
        have hmap : (firstMatch p rest).map (· + 1) = some (i + 1)
            ↔ firstMatch p rest = some i := by
          cases hfm : firstMatch p rest with
          | none => simp
          | some k => simp
        rw [hmap, ih i]
        simp only [List.getElem?_cons_succ]
        constructor
        · rintro ⟨hex, hall⟩
          refine ⟨hex, ?_⟩
          intro j hj a haj
          cases j with
          | zero =>
            rw [List.getElem?_cons_zero, Option.some.injEq] at haj
            rw [← haj]
            exact hqf
          | succ j =>
            exact hall j (by omega) a (by simpa using haj)
        · rintro ⟨hex, hall⟩
          exact ⟨hex, fun j hj a haj => hall (j + 1) (by omega) a (by simpa using haj)⟩

/-- Defaulted fields are always truthy after a Python `or` with a nonempty
string constant. -/
theorem truthy_pyOr (a : Option String) (b : String) (hb : (b == "") = false) :
    truthy (pyOr a b) = true := by
  rw [pyOr]
  by_cases h : truthy a = true
  · rw [if_pos h]
    exact h
  · rw [if_neg h]
    simp [truthy, hb]

/-- Length of the decimated list, by induction on a length bound. -/
theorem decimate_length_aux {α : Type*} (step : Nat) (hstep : 0 < step) :
    ∀ (n : Nat) (l : List α), l.length ≤ n →
      (decimate step l).length = (l.length + step - 1) / step := by
  intro n
  induction n with
  | zero =>
    intro l hl
    rw [List.eq_nil_of_length_eq_zero (Nat.le_zero.1 hl), decimate]
    simp only [List.length_nil, Nat.zero_add]
    rw [Nat.div_eq_of_lt (by omega)]
  | succ n ih =>
    intro l hl
    cases l with
    | nil =>
      rw [decimate]
      simp only [List.length_nil, Nat.zero_add]
      rw [Nat.div_eq_of_lt (by omega)]
    | cons x xs =>
      rw [decimate]
      simp only [List.length_cons]
      have hle : (xs.drop (step - 1)).length ≤ n := by
        simp only [List.length_drop]
        simp only [List.length_cons] at hl
        omega
      rw [ih _ hle]
      simp only [List.length_drop]
      rcases le_or_lt (step - 1) xs.length with hcase | hcase
      · have h1 : xs.length - (step - 1) + step - 1 = xs.length := by omega
        have h2 : xs.length + 1 + step - 1 = xs.length + step := by omega
        rw [h1, h2, Nat.add_div_right _ hstep]
      · have h1 : xs.length - (step - 1) + step - 1 = step - 1 := by omega
        have h2 : xs.length + 1 + step - 1 = xs.length + step := by omega
        rw [h1, h2, Nat.add_div_right _ hstep,
          Nat.div_eq_of_lt (by omega), Nat.div_eq_of_lt (by omega)]

/-- Length of the decimated list: ceiling of length over stride. -/
theorem decimate_length {α : Type*} (step : Nat) (hstep : 0 < step) (l : List α) :
    (decimate step l).length = (l.length + step - 1) / step :=
  decimate_length_aux step hstep l.length l le_rfl

/-- Indexing the decimated list, by induction on a length bound. -/
theorem decimate_getElem_aux {α : Type*} (step : Nat) (hstep : 0 < step) :
    ∀ (n : Nat) (l : List α), l.length ≤ n →
      ∀ i : Nat, (decimate step l)[i]? = l[step * i]? := by
  intro n
  induction n with
  | zero =>
    intro l hl i
    rw [List.eq_nil_of_length_eq_zero (Nat.le_zero.1 hl), decimate]
    simp
  | succ n ih =>
    intro l hl i
    cases l with
    | nil =>
      rw [decimate]
      simp
    | cons x xs =>
      rw [decimate]
      cases i with
      | zero => simp
      | succ i =>
        rw [List.getElem?_cons_succ]
        have hle : (xs.drop (step - 1)).length ≤ n := by
          simp only [List.length_drop]
          simp only [List.length_cons] at hl
          omega
        rw [ih _ hle i, List.getElem?_drop]
        have harith : step * (i + 1) = step - 1 + step * i + 1 := by
          rw [Nat.mul_succ]
          generalize step * i = k
          omega
        rw [harith, List.getElem?_cons_succ]

/-- Indexing the decimated list: element `i` of the decimation is element
`step * i` of the source (every stride-th element, nearest neighbour). -/
theorem decimate_getElem {α : Type*} (step : Nat) (hstep : 0 < step)
    (l : List α) (i : Nat) : (decimate step l)[i]? = l[step * i]? :=
  decimate_getElem_aux step hstep l.length l le_rfl i

/-- Membership in the decimated list, by induction on a length bound. -/
theorem mem_of_mem_decimate_aux {α : Type*} (step : Nat) :
    ∀ (n : Nat) (l : List α), l.length ≤ n →
      ∀ y : α, y ∈ decimate step l → y ∈ l := by
  intro n
  induction n with
  | zero =>
    intro l hl y h
    rw [List.eq_nil_of_length_eq_zero (Nat.le_zero.1 hl), decimate] at h
    simp at h
  | succ n ih =>
    intro l hl y h
    cases l with
    | nil =>
      rw [decimate] at h
      simp at h
    | cons x xs =>
      rw [decimate] at h
      rcases List.mem_cons.1 h with rfl | h
      · exact List.mem_cons_self _ _
      · have hle : (xs.drop (step - 1)).length ≤ n := by
          simp only [List.length_drop]
          simp only [List.length_cons] at hl
          omega
        exact List.mem_cons_of_mem _ (List.drop_subset _ _ (ih _ hle y h))

/-- Every element of the decimated list is an element of the source. -/
theorem mem_of_mem_decimate {α : Type*} (step : Nat) (l : List α) (y : α)
    (h : y ∈ decimate step l) : y ∈ l :=
  mem_of_mem_decimate_aux step l.length l le_rfl y h

/-- The sample value -5·10^-7 passes the normalizer unchanged (its maximum
is below 1.5). -/
theorem normalizeBand_negHalfMicro :
    normalizeBand [-(1 / 2000000)] = [-(1 / 2000000)] := by
  rw [normalizeBand, if_neg (by norm_num [listMax])]

/-- With red = nir = -5·10^-7 the NDVI denominator is exactly zero while
the numerator is zero: the float division is 0/0, an IEEE NaN, and
`np.clip` leaves NaN in place. -/
theorem ndviElem_negHalfMicro :
    ndviElem (-(1 / 2000000)) (-(1 / 2000000)) = none := by
  rw [ndviElem, if_pos (by norm_num [eps]), if_pos (by norm_num)]

/-- The one-pixel bands red = nir = [-5·10^-7] produce the all-NaN NDVI
array. -/
theorem ndviArray_negHalfMicro :
    ndviArray [-(1 / 2000000)] [-(1 / 2000000)] = [none] := by
  rw [ndviArray, normalizeBand_negHalfMicro, List.zipWith_cons_cons,
    ndviElem_negHalfMicro]
  rfl

/-- Rounding zero gives zero. -/
theorem roundHalfEven_zero : roundHalfEven 0 = 0 := by
  rw [roundHalfEven]
  norm_num

/-- Rounding zero to 3 digits gives zero. -/
theorem round3_zero : round3 0 = 0 := by
  norm_num [round3, roundHalfEven_zero]

/-- Rounding zero to 1 digit gives zero. -/
theorem round1_zero : round1 0 = 0 := by
  norm_num [round1, roundHalfEven_zero]

/-- On the all-zero one-pixel bands the NDVI array is [0]: the epsilon
guard turns 0/0 into 0/(0 + eps) = 0. -/
theorem ndviArray_zero_single : ndviArray [(0 : ℚ)] [(0 : ℚ)] = [some 0] := by
  have hnb : normalizeBand [(0 : ℚ)] = [(0 : ℚ)] := by
    rw [normalizeBand, if_neg (by norm_num [listMax])]
  have helem : ndviElem 0 0 = some 0 := by
    rw [ndviElem, if_neg (by norm_num [eps])]
    norm_num [min_def, max_def]
  rw [ndviArray, hnb]
  simp [helem]

/-- Mean of the single-element NDVI array [0]. -/
theorem meanNdvi_zero_single : meanNdvi [some (0 : ℚ)] = some 0 := by
  have hfv : finiteVals [some (0 : ℚ)] = [0] := by simp [finiteVals]
  rw [meanNdvi, if_neg (by rw [hfv]; simp), hfv]
  norm_num [round3_zero]

/-- Healthy percentage of the single-element NDVI array [0]. -/
theorem healthyPct_zero_single : healthyPct [some (0 : ℚ)] = some 0 := by
  rw [healthyPct, if_neg (by simp)]
  have hnot : ¬((3 : ℚ) / 10 < 0) := by norm_num
  have hcount : List.countP isHealthy [some (0 : ℚ)] = 0 := by
    rw [List.countP_cons, List.countP_nil]
    simp [isHealthy, hnot]
  rw [hcount]
  norm_num [round1_zero]

/-- Full numeric outcome on the all-zero one-pixel bands. -/
theorem computeNdviStats_zero :
    computeNdviStats [(0 : ℚ)] [(0 : ℚ)] = some ⟨some 0, some 0⟩ := by
  rw [computeNdviStats, if_neg (by simp), ndviArray_zero_single,
    meanNdvi_zero_single, healthyPct_zero_single]

/-- The first projection of the classifier keeps a truthy data_source. -/
theorem classify_fst_of_truthy (extSeen : List String) (ds ft : Option String)
    (h : truthy ds = true) : (classify extSeen ds ft).1 = ds := by
  rw [classify]
  split
  · rfl
  split
  · simp [pyOr, h]
  split
  · simp [pyOr, h]
  split
  · simp [pyOr, h]
  split
  · simp [pyOr, h]
  · rfl

/-- The second projection of the classifier keeps a truthy format_type. -/
theorem classify_snd_of_truthy (extSeen : List String) (ds ft : Option String)
    (h : truthy ft = true) : (classify extSeen ds ft).2 = ft := by
  rw [classify]
  split
  · rfl
  split
  · simp [pyOr, h]
  split
  · simp [pyOr, h]
  split
  · simp [pyOr, h]
  split
  · simp [pyOr, h]
  · rfl

/-- The classifier is idempotent: a second application with the same
extension set changes nothing. -/
theorem classify_idem (extSeen : List String) (ds ft : Option String) :
    classify extSeen (classify extSeen ds ft).1 (classify extSeen ds ft).2
      = classify extSeen ds ft := by
  by_cases h0 : (truthy ds && truthy ft) = true
  · have hc : classify extSeen ds ft = (ds, ft) := by
      rw [classify, if_pos h0]
    rw [hc]
    rw [classify, if_pos h0]
  by_cases h1 : hasAny extSeen [".tif", ".tiff", ".geotiff"] = true
  · have hc : classify extSeen ds ft = (pyOr ds "Satellite", pyOr ft "GeoTIFF") := by
      rw [classify, if_neg h0, if_pos h1]
    rw [hc]
    rw [classify, if_pos (by
      rw [truthy_pyOr ds _ (by decide), truthy_pyOr ft _ (by decide)]
      rfl)]
  by_cases h2 : hasAny extSeen [".hdf", ".h5"] = true
  · have hc : classify extSeen ds ft = (pyOr ds "Specialized", pyOr ft "HDF5") := by
      rw [classify, if_neg h0, if_neg h1, if_pos h2]
    rw [hc]
    rw [classify, if_pos (by
      rw [truthy_pyOr ds _ (by decide), truthy_pyOr ft _ (by decide)]
      rfl)]
  by_cases h3 : hasAny extSeen [".nc"] = true
  · have hc : classify extSeen ds ft = (pyOr ds "Specialized", pyOr ft "NetCDF") := by
      rw [classify, if_neg h0, if_neg h1, if_neg h2, if_pos h3]
    rw [hc]
    rw [classify, if_pos (by
      rw [truthy_pyOr ds _ (by decide), truthy_pyOr ft _ (by decide)]
      rfl)]
  by_cases h4 : hasAny extSeen [".jpg", ".jpeg", ".png"] = true
  · have hc : classify extSeen ds ft = (pyOr ds "Drone", pyOr ft "JPEG/PNG") := by
      rw [classify, if_neg h0, if_neg h1, if_neg h2, if_neg h3, if_pos h4]
    rw [hc]
    rw [classify, if_pos (by
      rw [truthy_pyOr ds _ (by decide), truthy_pyOr ft _ (by decide)]
      rfl)]
  · have hc : classify extSeen ds ft = (ds, ft) := by
      rw [classify, if_neg h0, if_neg h1, if_neg h2, if_neg h3, if_neg h4]
    rw [hc]
    exact hc

/-- With only a .tif extension and both fields unset the classifier
returns the Satellite/GeoTIFF pair. -/
theorem classify_tif_unset :
    classify [".tif"] none none = (some "Satellite", some "GeoTIFF") := by
  rw [classify, if_neg (by decide), if_pos (by decide)]
  rfl

/-- C1 (amended): for same-shape bands of non-negative samples — the
reflectance domain of the data model — every NDVI element produced by
lines 174-180 is finite and lies in [-1, 1], and all-zero inputs give
NDVI exactly 0 through the epsilon guard.  (The unamended claim, over
arbitrary real sample values, fails: see the counterexample with a
negative sample.) -/
theorem claim_C1_ndvi_range_amended (red nir : List ℚ)
    (hred : ∀ x ∈ red, 0 ≤ x) (hnir : ∀ x ∈ nir, 0 ≤ x) :
    (∀ o ∈ ndviArray red nir, ∃ v, o = some v ∧ -1 ≤ v ∧ v ≤ 1)
    ∧ ∀ k : Nat, ∀ o ∈ ndviArray (List.replicate k 0) (List.replicate k 0),
        o = some 0 := by
  constructor
  · intro o ho
    rcases exists_of_mem_zipWith ho with ⟨a, b, ha, hb, rfl⟩
    exact ndviElem_of_nonneg (normalizeBand_nonneg hred a ha)
      (normalizeBand_nonneg hnir b hb)
  · intro k o ho
    rw [ndviArray, normalizeBand_replicate_of_le k 0 (by norm_num),
      zipWith_replicate_same] at ho
    rw [List.eq_of_mem_replicate ho]
    rw [ndviElem, if_neg (by norm_num [eps])]
    norm_num [min_def, max_def]

/-- Witness for C1 at the concrete non-negative bands [1/2] and [1/4]. -/
theorem claim_C1_witness :
    (∀ o ∈ ndviArray [(1 : ℚ) / 2] [(1 : ℚ) / 4], ∃ v, o = some v ∧ -1 ≤ v ∧ v ≤ 1)
    ∧ ∀ k : Nat, ∀ o ∈ ndviArray (List.replicate k 0) (List.replicate k 0),
        o = some 0 :=
  claim_C1_ndvi_range_amended [(1 : ℚ) / 2] [(1 : ℚ) / 4]
    (by intro x hx; rw [List.mem_singleton] at hx; rw [hx]; norm_num)
    (by intro x hx; rw [List.mem_singleton] at hx; rw [hx]; norm_num)

/-- Counterexample to C1 as stated: bands whose only sample is the
negative value -5·10^-7 pass the normalizer unchanged, make the guarded
denominator exactly zero with a zero numerator, and the resulting element
is the IEEE NaN — not finite, so not in [-1, 1]. -/
theorem claim_C1_counterexample :
    ndviArray [-(1 / 2000000)] [-(1 / 2000000)] = [none]
    ∧ ¬ ∀ red nir : List ℚ, ∀ o ∈ ndviArray red nir,
        ∃ v, o = some v ∧ -1 ≤ v ∧ v ≤ 1 := by
  refine ⟨ndviArray_negHalfMicro, fun hall => ?_⟩
  rcases hall [-(1 / 2000000)] [-(1 / 2000000)] none
      (by rw [ndviArray_negHalfMicro]; exact List.mem_singleton_self _)
    with ⟨v, hv, _, _⟩
  exact Option.noConfusion hv

/-- C2 (amended): Strategy B picks as red the lowest-index page whose
case-folded label contains the substring "red" and as NIR the
lowest-index page whose label contains "nir" or "near", and it yields a
band pair exactly when both indices are found; the code performs no
distinctness check, so the two indices may coincide.  The 3-page example
resolves red_idx = 0, nir_idx = 1. -/
theorem claim_C2_strategyB_amended (pages : List TiffPage) (r n : Nat) :
    (strategyB pages = some (r, n) ↔ redIdx pages = some r ∧ nirIdx pages = some n)
    ∧ (redIdx pages = some r ↔
        (∃ p, pages[r]? = some p ∧ matchesRed p = true)
        ∧ ∀ j, j < r → ∀ p, pages[j]? = some p → matchesRed p = false)
    ∧ (nirIdx pages = some n ↔
        (∃ p, pages[n]? = some p ∧ matchesNir p = true)
        ∧ ∀ j, j < n → ∀ p, pages[j]? = some p → matchesNir p = false)
    ∧ strategyB threePages = some (0, 1) := by
  refine ⟨?_, firstMatch_eq_some_iff matchesRed pages r,
    firstMatch_eq_some_iff matchesNir pages n, by decide⟩
  rw [strategyB]
  cases hr : redIdx pages with
  | none =>
    cases hn2 : nirIdx pages with
    | none => simp
    | some nn => simp
  | some rr =>
    cases hn2 : nirIdx pages with
    | none => simp
    | some nn => simp [Prod.ext_iff, And.comm]

/-- Witness for C2 at the 3-page example container. -/
theorem claim_C2_witness :
    (strategyB threePages = some (0, 1)
      ↔ redIdx threePages = some 0 ∧ nirIdx threePages = some 1)
    ∧ (redIdx threePages = some 0 ↔
        (∃ p, threePages[0]? = some p ∧ matchesRed p = true)
        ∧ ∀ j, j < 0 → ∀ p, threePages[j]? = some p → matchesRed p = false)
    ∧ (nirIdx threePages = some 1 ↔
        (∃ p, threePages[1]? = some p ∧ matchesNir p = true)
        ∧ ∀ j, j < 1 → ∀ p, threePages[j]? = some p → matchesNir p = false)
    ∧ strategyB threePages = some (0, 1) :=
  claim_C2_strategyB_amended threePages 0 1

/-- Counterexample to C2 as stated: the single-page container labeled
"near infrared" matches both searches at page 0 ("infrared" contains the
substring "red"), and Strategy B still yields the pair (0, 0) — the
claimed distinctness condition is not in the code. -/
theorem claim_C2_counterexample :
    strategyB [nearInfraredPage] = some (0, 0)
    ∧ ¬ ∀ (pages : List TiffPage) (r n : Nat),
        strategyB pages = some (r, n) → r ≠ n := by
  refine ⟨by decide, fun hall => ?_⟩
  exact hall [nearInfraredPage] 0 0 (by decide) rfl

/-- C3 (amended): mean_ndvi is the arithmetic mean of the finite NDVI
elements rounded to 3 digits, non-finite elements excluded; but when
every element is non-finite `np.nanmean` returns NaN and the aggregation
still returns an outcome carrying that NaN as the mean — line 186 never
fails the analysis. -/
theorem claim_C3_mean_amended (xs : List (Option ℚ)) (red nir : List ℚ)
    (hfin : finiteVals xs ≠ []) (hred : red ≠ []) (hnir : nir ≠ []) :
    meanNdvi xs = some (round3 ((finiteVals xs).sum / (finiteVals xs).length))
    ∧ (∀ ys : List (Option ℚ), (∀ o ∈ ys, o = none) → meanNdvi ys = none)
    ∧ computeNdviStats red nir ≠ none := by
  refine ⟨by rw [meanNdvi, if_neg hfin], ?_, ?_⟩
  · intro ys hys
    rw [meanNdvi, if_pos]
    rw [finiteVals, List.filterMap_eq_nil_iff]
    intro o ho
    rw [hys o ho]
    rfl
  · rw [computeNdviStats, if_neg (by simp [hred, hnir])]
    simp

/-- Witness for C3 at the singleton array [0] and the all-zero bands. -/
theorem claim_C3_witness :
    meanNdvi [some (0 : ℚ)]
      = some (round3 ((finiteVals [some (0 : ℚ)]).sum / (finiteVals [some (0 : ℚ)]).length))
    ∧ (∀ ys : List (Option ℚ), (∀ o ∈ ys, o = none) → meanNdvi ys = none)
    ∧ computeNdviStats [(0 : ℚ)] [(0 : ℚ)] ≠ none :=
  claim_C3_mean_amended [some (0 : ℚ)] [(0 : ℚ)] [(0 : ℚ)]
    (by simp [finiteVals]) (by simp) (by simp)

/-- Counterexample to C3 as stated: bands producing an all-NaN NDVI array
do not make the aggregation fail — the analysis returns an outcome whose
mean field is the NaN itself (and healthy_pct 0). -/
theorem claim_C3_counterexample :
    (∀ o ∈ ndviArray [-(1 / 2000000)] [-(1 / 2000000)], o = none)
    ∧ computeNdviStats [-(1 / 2000000)] [-(1 / 2000000)] = some ⟨none, some 0⟩ := by
  constructor
  · intro o ho
    rw [ndviArray_negHalfMicro] at ho
    exact List.eq_of_mem_singleton ho
  · rw [computeNdviStats, if_neg (by simp), ndviArray_negHalfMicro]
    rw [meanNdvi, if_pos (by simp [finiteVals])]
    rw [healthyPct, if_neg (by simp)]
    have hcount : List.countP isHealthy [(none : Option ℚ)] = 0 := by
      rw [List.countP_cons, List.countP_nil]
      simp [isHealthy]
    rw [hcount]
    norm_num [round1_zero]

/-- C4: when the numeric statistics are computable, a heatmap save
failure (the fallible step of the Preview Renderer, guarded by the
try/except of lines 334-338) leaves the numeric fields exactly as in the
success case and keeps the previous map URL — numeric and visual outputs
are independently best-effort. -/
theorem claim_C4_render_failure (red nir : List ℚ) (oc : NdviOutcome)
    (prevUrl : Option String) (newUrl : String)
    (hoc : computeNdviStats red nir = some oc) :
    analyzeSlice red nir prevUrl false newUrl
      = some ⟨oc.mean_ndvi, oc.healthy_pct, prevUrl⟩
    ∧ (analyzeSlice red nir prevUrl false newUrl).map ProjectFields.mean_ndvi
      = (analyzeSlice red nir prevUrl true newUrl).map ProjectFields.mean_ndvi
    ∧ (analyzeSlice red nir prevUrl false newUrl).map ProjectFields.healthy_pct
      = (analyzeSlice red nir prevUrl true newUrl).map ProjectFields.healthy_pct := by
  simp only [analyzeSlice, hoc, Option.map_some']
  exact ⟨rfl, rfl, rfl⟩

/-- Witness for C4 at the all-zero one-pixel bands. -/
theorem claim_C4_witness :
    analyzeSlice [(0 : ℚ)] [(0 : ℚ)] none false "u"
      = some ⟨some 0, some 0, none⟩
    ∧ (analyzeSlice [(0 : ℚ)] [(0 : ℚ)] none false "u").map ProjectFields.mean_ndvi
      = (analyzeSlice [(0 : ℚ)] [(0 : ℚ)] none true "u").map ProjectFields.mean_ndvi
    ∧ (analyzeSlice [(0 : ℚ)] [(0 : ℚ)] none false "u").map ProjectFields.healthy_pct
      = (analyzeSlice [(0 : ℚ)] [(0 : ℚ)] none true "u").map ProjectFields.healthy_pct :=
  claim_C4_render_failure [(0 : ℚ)] [(0 : ℚ)] ⟨some 0, some 0⟩ none "u"
    computeNdviStats_zero

/-- C5 (amended): the radiometric normalizer divides by 10000 when the
maximum exceeds 100, by 255 when it exceeds 1.5 but not 100, and passes
the array through when the maximum is at most 1.5; max 9000 → /10000 and
max 0.8 → unchanged as claimed, but max 200 falls in the 10000 branch
(200 > 100), not the 255 branch — a max such as 50 exercises the 255
branch. -/
theorem claim_C5_normalizer (a : List ℚ) (ha : a ≠ []) :
    (100 < listMax a → normalizeBand a = a.map (fun x => x / 10000))
    ∧ (3 / 2 < listMax a → listMax a ≤ 100 → normalizeBand a = a.map (fun x => x / 255))
    ∧ (listMax a ≤ 3 / 2 → normalizeBand a = a)
    ∧ normalizeBand [9000] = [9 / 10]
    ∧ normalizeBand [200] = [1 / 50]
    ∧ normalizeBand [50] = [10 / 51]
    ∧ normalizeBand [4 / 5] = [4 / 5] := by
  refine ⟨?_, ?_, ?_, ?_, ?_, ?_, ?_⟩
  · intro h
    rw [normalizeBand, if_pos (by linarith), if_pos h]
  · intro h1 h2
    rw [normalizeBand, if_pos h1, if_neg (by linarith)]
  · intro h
    rw [normalizeBand, if_neg (by linarith)]
  · rw [normalizeBand, if_pos (by norm_num [listMax]), if_pos (by norm_num [listMax])]
    norm_num
  · rw [normalizeBand, if_pos (by norm_num [listMax]), if_pos (by norm_num [listMax])]
    norm_num
  · rw [normalizeBand, if_pos (by norm_num [listMax]), if_neg (by norm_num [listMax])]
    norm_num
  · rw [normalizeBand, if_neg (by norm_num [listMax])]

/-- Witness for C5 at the concrete array [9000]. -/
theorem claim_C5_witness :
    ((100 : ℚ) < listMax [9000] → normalizeBand [9000] = [9000].map (fun x => x / 10000))
    ∧ ((3 : ℚ) / 2 < listMax [9000] → listMax [9000] ≤ 100
        → normalizeBand [9000] = [9000].map (fun x => x / 255))
    ∧ (listMax [9000] ≤ 3 / 2 → normalizeBand [9000] = [9000])
    ∧ normalizeBand [9000] = [9 / 10]
    ∧ normalizeBand [200] = [1 / 50]
    ∧ normalizeBand [50] = [10 / 51]
    ∧ normalizeBand [4 / 5] = [4 / 5] :=
  claim_C5_normalizer [9000] (by simp)

/-- Counterexample to C5 as stated: the array with maximum 200 is divided
by 10000 (its maximum exceeds 100), not by 255 as the claim's example
asserts: the result is [1/50], not [200/255]. -/
theorem claim_C5_counterexample :
    normalizeBand [200] = [1 / 50]
    ∧ normalizeBand [200] ≠ [200].map (fun x => x / 255) := by
  have h : normalizeBand [200] = [1 / 50] := by
    rw [normalizeBand, if_pos (by norm_num [listMax]), if_pos (by norm_num [listMax])]
    norm_num
  refine ⟨h, ?_⟩
  rw [h, List.map_cons, List.map_nil]
  intro hbad
  rw [List.cons.injEq] at hbad
  exact absurd hbad.1 (by norm_num)

/-- C6: for a 3-D interleaved shape (h, w, c), Strategy A resolves red to
channel 2 and NIR to channel 3 when c ≥ 4 and is unresolved when c ≤ 3;
in particular a (10, 10, 3) RGB array yields no band pair. -/
theorem claim_C6_strategyA (h w c : Nat) :
    (4 ≤ c → guessRedNir [h, w, c] = some (2, 3))
    ∧ (c ≤ 3 → guessRedNir [h, w, c] = none)
    ∧ guessRedNir [10, 10, 3] = none := by
  refine ⟨?_, ?_, by decide⟩
  · intro hc
    show (if 4 ≤ c then some ((2 : Nat), (3 : Nat)) else none) = some (2, 3)
    rw [if_pos hc]
  · intro hc
    show (if 4 ≤ c then some ((2 : Nat), (3 : Nat)) else none) = none
    rw [if_neg (by omega)]

/-- Witness for C6 at the shapes (10, 10, 4) and (10, 10, 3). -/
theorem claim_C6_witness :
    guessRedNir [10, 10, 4] = some (2, 3) ∧ guessRedNir [10, 10, 3] = none :=
  ⟨(claim_C6_strategyA 10 10 4).1 (by norm_num), (claim_C6_strategyA 10 10 3).2.2⟩

/-- C7 (amended): for a uniform pair with nir = 2·red and red > 0 (within
the normalized range) every NDVI element equals red/(3·red + eps) —
constant over the array, strictly below 1/3 and within eps/(9·red) of it;
the epsilon guard shifts the pre-clamp value away from 1/3 by exactly
eps/(3·(3·red + eps)), so it is approximately, not exactly, 1/3. -/
theorem claim_C7_uniform_amended (r : ℚ) (hr : 0 < r) (hr2 : r ≤ 3 / 4) :
    ndviRaw r (2 * r) = r / (3 * r + eps)
    ∧ ndviRaw r (2 * r) < 1 / 3
    ∧ 1 / 3 - ndviRaw r (2 * r) = eps / (3 * (3 * r + eps))
    ∧ 1 / 3 - ndviRaw r (2 * r) ≤ eps / (9 * r)
    ∧ ndviElem r (2 * r) = some (ndviRaw r (2 * r))
    ∧ ∀ k : Nat, ∀ o ∈ ndviArray (List.replicate k r) (List.replicate k (2 * r)),
        o = some (ndviRaw r (2 * r)) := by
  have hepos := eps_pos
  have hden : 0 < 3 * r + eps := by linarith
  have heq : ndviRaw r (2 * r) = r / (3 * r + eps) := by
    rw [ndviRaw]
    congr 1 <;> ring
  have hlt : ndviRaw r (2 * r) < 1 / 3 := by
    rw [heq, div_lt_div_iff₀ hden (by norm_num)]
    linarith
  have hpos : 0 < ndviRaw r (2 * r) := by
    rw [heq]
    exact div_pos hr hden
  have hdiff : 1 / 3 - ndviRaw r (2 * r) = eps / (3 * (3 * r + eps)) := by
    rw [heq, div_sub_div _ _ (by norm_num : (3 : ℚ) ≠ 0) hden.ne']
    congr 1
    ring
  have helem : ndviElem r (2 * r) = some (ndviRaw r (2 * r)) := by
    rw [ndviElem, if_neg (by intro h0; exact hden.ne' (by linarith))]
    rw [show (2 * r - r) / (2 * r + r + eps) = ndviRaw r (2 * r) from rfl]
    rw [min_eq_right (le_of_lt (lt_of_lt_of_le hlt (by norm_num))),
      max_eq_right (le_of_lt (lt_trans (by norm_num) hpos))]
  refine ⟨heq, hlt, hdiff, ?_, helem, ?_⟩
  · rw [hdiff, div_le_div_iff₀ (by linarith) (by linarith)]
    nlinarith
  · intro k o ho
    rw [ndviArray, normalizeBand_replicate_of_le k r (by linarith),
      normalizeBand_replicate_of_le k (2 * r) (by linarith),
      zipWith_replicate_same] at ho
    rw [List.eq_of_mem_replicate ho]
    exact helem

/-- Witness for C7 at red = 1/4, nir = 1/2. -/
theorem claim_C7_witness :
    ndviRaw (1 / 4) (2 * (1 / 4)) = 1 / 4 / (3 * (1 / 4) + eps)
    ∧ ndviRaw (1 / 4) (2 * (1 / 4)) < 1 / 3
    ∧ 1 / 3 - ndviRaw (1 / 4) (2 * (1 / 4)) = eps / (3 * (3 * (1 / 4) + eps))
    ∧ 1 / 3 - ndviRaw (1 / 4) (2 * (1 / 4)) ≤ eps / (9 * (1 / 4))
    ∧ ndviElem (1 / 4) (2 * (1 / 4)) = some (ndviRaw (1 / 4) (2 * (1 / 4)))
    ∧ ∀ k : Nat, ∀ o ∈ ndviArray (List.replicate k (1 / 4)) (List.replicate k (2 * (1 / 4))),
        o = some (ndviRaw (1 / 4) (2 * (1 / 4))) :=
  claim_C7_uniform_amended (1 / 4) (by norm_num) (by norm_num)

/-- Counterexample to C7 as stated: at red = 1/4, nir = 1/2 the pre-clamp
value (nir - red)/(nir + red + eps) is 250000/750001, not exactly 1/3. -/
theorem claim_C7_counterexample : ndviRaw (1 / 4) (1 / 2) ≠ 1 / 3 := by
  rw [ndviRaw, eps]
  norm_num

/-- C8: the preview stride is max(1, floor(max(h, w)/1024)), decimation
takes every stride-th row and column, and on a 4096×4096 NDVI field the
stride is 4 and the preview is at most 1024×1024. -/
theorem claim_C8_preview (ndvi : List (List ℚ))
    (hh : ndvi.length = 4096) (hw : ∀ row ∈ ndvi, row.length = 4096) :
    (∀ h w : Nat, previewStep h w = max 1 (max h w / 1024))
    ∧ (∀ (l : List ℚ) (s i : Nat), 0 < s → (decimate s l)[i]? = l[s * i]?)
    ∧ previewStep 4096 4096 = 4
    ∧ (previewDownsample ndvi).length ≤ 1024
    ∧ ∀ row ∈ previewDownsample ndvi, row.length ≤ 1024 := by
  have hstep : previewStep 4096 4096 = 4 := by decide
  have hhead : (ndvi.headD []).length = 4096 := by
    cases ndvi with
    | nil => simp at hh
    | cons a l => exact hw a (List.mem_cons_self a l)
  refine ⟨fun h w => rfl, fun l s i hs => decimate_getElem s hs l i, hstep, ?_, ?_⟩
  · rw [previewDownsample, hh, hhead, hstep]
    rw [decimate_length 4 (by norm_num), List.length_map, hh]
  · intro row hrow
    rw [previewDownsample, hh, hhead, hstep] at hrow
    rcases List.mem_map.1 (mem_of_mem_decimate 4 _ row hrow) with ⟨row0, hrow0, rfl⟩
    rw [decimate_length 4 (by norm_num), hw row0 hrow0]

/-- Witness for C8 at the concrete 4096×4096 zero field. -/
theorem claim_C8_witness :
    (∀ h w : Nat, previewStep h w = max 1 (max h w / 1024))
    ∧ (∀ (l : List ℚ) (s i : Nat), 0 < s → (decimate s l)[i]? = l[s * i]?)
    ∧ previewStep 4096 4096 = 4
    ∧ (previewDownsample (List.replicate 4096 (List.replicate 4096 (0 : ℚ)))).length ≤ 1024
    ∧ ∀ row ∈ previewDownsample (List.replicate 4096 (List.replicate 4096 (0 : ℚ))),
        row.length ≤ 1024 :=
  claim_C8_preview (List.replicate 4096 (List.replicate 4096 (0 : ℚ)))
    (by rw [List.length_replicate])
    (by intro row hrow; rw [List.eq_of_mem_replicate hrow, List.length_replicate])

/-- C9: the source/format classifier never overwrites a truthy (set)
field, is idempotent for a fixed extension set, and maps the unset pair
with extensions containing .tif to (Satellite, GeoTIFF). -/
theorem claim_C9_classify (extSeen : List String) (ds ft : Option String) :
    (truthy ds = true → (classify extSeen ds ft).1 = ds)
    ∧ (truthy ft = true → (classify extSeen ds ft).2 = ft)
    ∧ classify extSeen (classify extSeen ds ft).1 (classify extSeen ds ft).2
        = classify extSeen ds ft
    ∧ classify [".tif"] none none = (some "Satellite", some "GeoTIFF") :=
  ⟨classify_fst_of_truthy extSeen ds ft, classify_snd_of_truthy extSeen ds ft,
    classify_idem extSeen ds ft, classify_tif_unset⟩

/-- Witness for C9 at a concrete extension set and set fields. -/
theorem claim_C9_witness :
    (classify [".tif"] (some "Drone") (some "JPEG/PNG")).1 = some "Drone"
    ∧ (classify [".tif"] (some "Drone") (some "JPEG/PNG")).2 = some "JPEG/PNG"
    ∧ classify [".tif"]
        (classify [".tif"] (some "Drone") (some "JPEG/PNG")).1
        (classify [".tif"] (some "Drone") (some "JPEG/PNG")).2
      = classify [".tif"] (some "Drone") (some "JPEG/PNG")
    ∧ classify [".tif"] none none = (some "Satellite", some "GeoTIFF") :=
  ⟨(claim_C9_classify [".tif"] (some "Drone") (some "JPEG/PNG")).1 (by decide),
    (claim_C9_classify [".tif"] (some "Drone") (some "JPEG/PNG")).2.1 (by decide),
    (claim_C9_classify [".tif"] (some "Drone") (some "JPEG/PNG")).2.2.1,
    (claim_C9_classify [".tif"] (some "Drone") (some "JPEG/PNG")).2.2.2⟩

/-- C10: the red search matches "red" as a substring, which includes
"infrared": a page whose label contains "infrared", preceded by no page
matching the red search, is selected as the red band; and on the
single-page container labeled "near infrared" the resolved red and NIR
indices coincide. -/
theorem claim_C10_infrared_matches_red (pages : List TiffPage) (i : Nat)
    (p : TiffPage) (hp : pages[i]? = some p)
    (hinf : containsSub "infrared".data (pageLabel p) = true)
    (hbefore : ∀ j, j < i → ∀ q, pages[j]? = some q → matchesRed q = false) :
    redIdx pages = some i ∧ strategyB [nearInfraredPage] = some (0, 0) :=
  ⟨(firstMatch_eq_some_iff matchesRed pages i).2
      ⟨⟨p, hp, containsRed_of_containsInfrared hinf⟩, hbefore⟩,
    by decide⟩

/-- Witness for C10 at the single-page "near infrared" container. -/
theorem claim_C10_witness :
    redIdx [nearInfraredPage] = some 0
    ∧ strategyB [nearInfraredPage] = some (0, 0) :=
  claim_C10_infrared_matches_red [nearInfraredPage] 0 nearInfraredPage rfl
    (by decide) (fun j hj q hq => absurd hj (Nat.not_lt_zero j))

end Server
